import Mathlib

/-
  Verification development for the storefront-design front end
  (mask-authoring / mask-encoding subsystem of components/DesignStep.tsx
  and the submission helper generateStoreFrontDesign).

  The drawing state, its undo history and the mask compiler are embedded
  shallowly: an ImageData is a width, a height and a flat list of RGBA
  pixels; the React component state is a CanvasState; each event handler
  of DesignStep.tsx becomes a pure state transformer.  Browser stroke
  rasterisation (ctx.lineTo / ctx.stroke) is not part of the repository,
  so the pixel effect of one pointer-move is abstracted as an arbitrary
  function on the pixel list, applied only when a stroke is active,
  exactly as the draw handler guards on isDrawing.
-/

namespace Shopfront

/-- One RGBA pixel, four channels of a canvas ImageData entry. -/
structure Pixel where
  r : Nat
  g : Nat
  b : Nat
  a : Nat
deriving DecidableEq

/-- A canvas pixel buffer: dimensions plus the flat pixel list,
mirroring the browser ImageData read by getImageData. -/
structure ImageData where
  width : Nat
  height : Nat
  data : List Pixel
deriving DecidableEq

/-- Fully transparent pixel: the state of a freshly cleared canvas. -/
def clearPixel : Pixel := ⟨0, 0, 0, 0⟩

/-- Opaque white, written by the mask loop where the user painted. -/
def whitePixel : Pixel := ⟨255, 255, 255, 255⟩

/-- Opaque black, the fillStyle 0x000000 background of the temp canvas. -/
def blackPixel : Pixel := ⟨0, 0, 0, 255⟩

/-- Step 2 of prepareAndSubmit: the temp canvas after
fillRect with fillStyle black — every pixel opaque black. -/
def blackFill (n : Nat) : List Pixel := List.replicate n blackPixel

/-- Step 3 of prepareAndSubmit: the pixel loop.  Walks the user canvas
data and the temp canvas data together; wherever the user alpha is > 0
the temp pixel is overwritten with opaque white, otherwise it is left
as it was (black). -/
def applyMaskLoop : List Pixel → List Pixel → List Pixel
  | [], t => t
  | _ :: _, [] => []
  | u :: us, t :: ts => (if u.a > 0 then whitePixel else t) :: applyMaskLoop us ts

/-- The mask compiler of prepareAndSubmit (DesignStep.tsx lines 159-201):
a temp canvas of the same dimensions is filled black, then the loop
paints white wherever the drawing surface has alpha > 0. -/
def compileMask (img : ImageData) : ImageData :=
  { width := img.width
    height := img.height
    data := applyMaskLoop img.data (blackFill img.data.length) }

/-- The full component state of DesignStep that the claims speak about:
canvas dimensions, the drawing-surface pixels, the undo history (a JS
array of ImageData snapshots, most recent last) and the isDrawing flag. -/
structure CanvasState where
  width : Nat
  height : Nat
  pixels : List Pixel
  history : List (List Pixel)
  isDrawing : Bool
deriving DecidableEq

/-- JS history.slice(-10): the at most 10 most recent snapshots. -/
def sliceLastTen (h : List (List Pixel)) : List (List Pixel) :=
  h.drop (h.length - 10)

/-- startDrawing: sets isDrawing, pushes a snapshot of the current
buffer onto the history after trimming it to its last 10 entries
(setHistory(prev => [...prev.slice(-10), getImageData(...)])), then
begins a path — path setup changes no pixels. -/
def startDrawing (s : CanvasState) : CanvasState :=
  { s with isDrawing := true
           history := sliceLastTen s.history ++ [s.pixels] }

/-- draw: guarded on isDrawing; when active, lineTo/stroke rasterise
one segment into the buffer — that browser-side pixel effect is the
abstract function f.  When no stroke is active the handler returns
immediately and nothing changes. -/
def draw (f : List Pixel → List Pixel) (s : CanvasState) : CanvasState :=
  if s.isDrawing then { s with pixels := f s.pixels } else s

/-- A whole sequence of pointer-move events during one stroke. -/
def drawAll (fs : List (List Pixel → List Pixel)) (s : CanvasState) : CanvasState :=
  fs.foldl (fun st f => draw f st) s

/-- stopDrawing: returns immediately unless a stroke is active;
otherwise clears isDrawing and closes the path (closePath strokes
nothing, so pixels are untouched). -/
def stopDrawing (s : CanvasState) : CanvasState :=
  if s.isDrawing then { s with isDrawing := false } else s

/-- handleUndo: if the history is non-empty, putImageData writes the
most recent snapshot over the entire buffer and the snapshot is popped
(slice(0,-1)); otherwise nothing happens.  isDrawing is not touched. -/
def handleUndo (s : CanvasState) : CanvasState :=
  match s.history.getLast? with
  | some prev => { s with pixels := prev, history := s.history.dropLast }
  | none => s

/-- handleClear: pushes a snapshot with the same slice(-10) trimming as
startDrawing, then clearRect resets every pixel to fully transparent.
isDrawing is not touched. -/
def handleClear (s : CanvasState) : CanvasState :=
  { s with history := sliceLastTen s.history ++ [s.pixels]
           pixels := List.replicate (s.width * s.height) clearPixel }

/-- Loading a photo: handleFileUpload sets the history to [] and the
canvas-init effect then resizes the canvas to the photo's natural
dimensions (which blanks it), clears it, and — seeing the empty
history — stores the blank buffer as the single initial snapshot. -/
def loadPhoto (w h : Nat) (s : CanvasState) : CanvasState :=
  { s with width := w
           height := h
           pixels := List.replicate (w * h) clearPixel
           history := [List.replicate (w * h) clearPixel] }

/-- The component's mount state: no canvas yet, empty history. -/
def initState : CanvasState :=
  { width := 0, height := 0, pixels := [], history := [], isDrawing := false }

/-- The discrete events DesignStep reacts to. -/
inductive Event where
  | load (w h : Nat)
  | strokeStart
  | strokeMove (f : List Pixel → List Pixel)
  | strokeStop
  | undo
  | clear

/-- One event dispatch. -/
def step : Event → CanvasState → CanvasState
  | .load w h, s => loadPhoto w h s
  | .strokeStart, s => startDrawing s
  | .strokeMove f, s => draw f s
  | .strokeStop, s => stopDrawing s
  | .undo, s => handleUndo s
  | .clear, s => handleClear s

/-- Running a whole event sequence from a state. -/
def run (es : List Event) (s : CanvasState) : CanvasState :=
  es.foldl (fun st e => step e st) s

/-- One complete guarded mutation: a stroke begun and ended. -/
def strokeOnce (s : CanvasState) : CanvasState := stopDrawing (startDrawing s)

/-- Eleven stroke starts after a photo load, no undos in between. -/
def elevenStarts : CanvasState := strokeOnce^[11] (loadPhoto 1 1 initState)

/-- Load a 2x1 photo, paint one stroke, then load a 1x3 photo. -/
def afterReload : CanvasState :=
  loadPhoto 1 3
    (stopDrawing (draw (fun _ => [whitePixel, whitePixel]) (startDrawing (loadPhoto 2 1 initState))))

/-- A state in the middle of a stroke (pointer down, not yet up). -/
def strokingState : CanvasState := startDrawing (loadPhoto 1 1 initState)

/-- A tiny 2x1 buffer: one painted pixel (the semi-transparent red
brush colour), one untouched pixel. -/
def bufEx : ImageData := ⟨2, 1, [⟨255, 0, 0, 128⟩, ⟨0, 0, 0, 0⟩]⟩

/-- A state whose history is empty. -/
def emptyHistState : CanvasState :=
  { width := 1, height := 1, pixels := [clearPixel], history := [], isDrawing := false }

/-- A state whose history holds one snapshot. -/
def oneHistState : CanvasState :=
  { width := 1, height := 1, pixels := [clearPixel], history := [[whitePixel]], isDrawing := false }

/-- The bounding rectangle returned by getBoundingClientRect, over ℚ. -/
structure DomRect where
  left : ℚ
  top : ℚ
  width : ℚ
  height : ℚ

/-- getCoordinates (DesignStep.tsx lines 75-93): per-axis scale factors
canvas.width / rect.width and canvas.height / rect.height, applied to
the client coordinates relative to the rectangle origin. -/
def getCoordinates (clientX clientY canvasWidth canvasHeight : ℚ) (rect : DomRect) : ℚ × ℚ :=
  let scaleX : ℚ := canvasWidth / rect.width
  let scaleY : ℚ := canvasHeight / rect.height
  ((clientX - rect.left) * scaleX, (clientY - rect.top) * scaleY)

/-- JS \w character class: letters, digits and underscore. -/
def isWordChar (c : Char) : Bool := c.isAlphanum || c = '_'

/-- The literal "data:image/" head of the stripped regex. -/
def dataHead : List Char := ['d', 'a', 't', 'a', ':', 'i', 'm', 'a', 'g', 'e', '/']

/-- The literal ";base64," tail of the stripped regex. -/
def base64Sep : List Char := [';', 'b', 'a', 's', 'e', '6', '4', ',']

/-- Matching a literal at the head of the input: some remainder on a
match, none otherwise. -/
def dropLit : List Char → List Char → Option (List Char)
  | [], s => some s
  | _ :: _, [] => none
  | p :: ps, c :: cs => if c = p then dropLit ps cs else none

/-- maskBase64.replace of the anchored pattern data:image\/\w+;base64,
by the empty string (geminiService, generateStoreFrontDesign): if the
input starts with the literal head, a non-empty maximal run of word
characters, and the literal separator, everything up to and including
the separator is removed; otherwise the input is returned unchanged.
The separator starts with a non-word character, so the greedy maximal
word run is the only candidate match. -/
def cleanMask (s : List Char) : List Char :=
  Option.elim (dropLit dataHead s) s (fun afterHead =>
    if afterHead.takeWhile isWordChar = [] then s
    else
      Option.elim (dropLit base64Sep (afterHead.dropWhile isWordChar)) s
        (fun afterSep => afterSep))

/-- One inlineData part of the submission request. -/
structure InlinePart where
  mimeType : List Char
  data : List Char
deriving DecidableEq

/-- The characters of the literal MIME type image/png. -/
def pngMime : List Char := ['i', 'm', 'a', 'g', 'e', '/', 'p', 'n', 'g']

/-- The mask part pushed to the request in generateStoreFrontDesign:
cleaned base64 data together with the explicit image/png MIME type. -/
def maskInlinePart (maskBase64 : List Char) : InlinePart :=
  ⟨pngMime, cleanMask maskBase64⟩

/-- JS String.prototype.trim: whitespace removed from both ends. -/
def jsTrim (s : List Char) : List Char :=
  ((s.dropWhile Char.isWhitespace).reverse.dropWhile Char.isWhitespace).reverse

/-- The disabled condition of the Generate Design button is
!targetImage || !userPrompt.trim(); the button is enabled exactly when
a target image is present and the trimmed prompt is a non-empty
string.  No property of the mask or of the stroke history occurs in
the condition. -/
def generateEnabled (hasTargetImage : Bool) (prompt : List Char) : Bool :=
  hasTargetImage && !(jsTrim prompt).isEmpty

/- ------------------------------------------------------------------
   Helper lemmas
   ------------------------------------------------------------------ -/

theorem sliceLastTen_length (h : List (List Pixel)) :
    (sliceLastTen h).length = min h.length 10 := by
  simp only [sliceLastTen, List.length_drop]
  omega

theorem startDrawing_history_length (s : CanvasState) :
    (startDrawing s).history.length = min s.history.length 10 + 1 := by
  simp [startDrawing, sliceLastTen_length]

theorem handleClear_history_length (s : CanvasState) :
    (handleClear s).history.length = min s.history.length 10 + 1 := by
  simp [handleClear, sliceLastTen_length]

theorem drawAll_history (fs : List (List Pixel → List Pixel)) (s : CanvasState) :
    (drawAll fs s).history = s.history ∧ (drawAll fs s).isDrawing = s.isDrawing := by
  induction fs generalizing s with
  | nil => exact ⟨rfl, rfl⟩
  | cons f fs ih =>
    have hstep : (draw f s).history = s.history ∧ (draw f s).isDrawing = s.isDrawing := by
      by_cases hd : s.isDrawing <;> simp [draw, hd]
    have := ih (draw f s)
    exact ⟨this.1.trans hstep.1, this.2.trans hstep.2⟩

theorem applyMaskLoop_eq_map (u : List Pixel) :
    applyMaskLoop u (blackFill u.length) =
      u.map (fun p => if p.a > 0 then whitePixel else blackPixel) := by
  induction u with
  | nil => rfl
  | cons p ps ih =>
    simp [applyMaskLoop, blackFill, List.replicate_succ] at *
    exact ih

theorem handleUndo_history_length (s : CanvasState) :
    (handleUndo s).history.length ≤ s.history.length := by
  unfold handleUndo
  cases hl : s.history.getLast? with
  | none => exact Nat.le_refl _
  | some prev => simp [List.length_dropLast]

theorem step_history_bound (e : Event) (s : CanvasState)
    (hs : s.history.length ≤ 11) : (step e s).history.length ≤ 11 := by
  cases e with
  | load w h => simp [step, loadPhoto]
  | strokeStart =>
    have := startDrawing_history_length s
    simp only [step]
    omega
  | strokeMove f => by_cases hd : s.isDrawing <;> simp [step, draw, hd, hs]
  | strokeStop => by_cases hd : s.isDrawing <;> simp [step, stopDrawing, hd, hs]
  | undo => exact le_trans (handleUndo_history_length s) hs
  | clear =>
    have := handleClear_history_length s
    simp only [step]
    omega

theorem run_history_bound (es : List Event) :
    ∀ s : CanvasState, s.history.length ≤ 11 → (run es s).history.length ≤ 11 := by
  induction es with
  | nil => intro s hs; exact hs
  | cons e es ih =>
    intro s hs
    exact ih (step e s) (step_history_bound e s hs)

theorem dropLit_append (p s : List Char) : dropLit p (p ++ s) = some s := by
  induction p with
  | nil => rfl
  | cons c cs ih => simp [dropLit, ih]

theorem takeWhile_word_semi (w rest : List Char)
    (hall : ∀ c ∈ w, isWordChar c = true) :
    (w ++ ';' :: rest).takeWhile isWordChar = w ∧
    (w ++ ';' :: rest).dropWhile isWordChar = ';' :: rest := by
  induction w with
  | nil =>
    constructor <;> simp [List.takeWhile, List.dropWhile, isWordChar]
  | cons c cs ih =>
    have hc : isWordChar c = true := hall c (by simp)
    have hrec := ih (fun d hd => hall d (by simp [hd]))
    constructor <;>
      simp [List.takeWhile_cons, List.dropWhile_cons, hc, hrec.1, hrec.2]

theorem jsTrim_eq_nil_iff (s : List Char) :
    jsTrim s = [] ↔ ∀ c ∈ s, c.isWhitespace = true := by
  unfold jsTrim
  constructor
  · intro h c hc
    rw [List.reverse_eq_nil_iff, List.dropWhile_eq_nil_iff] at h
    have h' : ∀ a ∈ s.dropWhile Char.isWhitespace, a.isWhitespace = true :=
      fun a ha => h a (List.mem_reverse.2 ha)
    have hnil : s.dropWhile Char.isWhitespace = [] := by
      by_contra hne
      have hhead := List.head_dropWhile_not Char.isWhitespace s hne
      simp [h' _ (List.head_mem hne)] at hhead
    rw [List.dropWhile_eq_nil_iff] at hnil
    exact hnil c hc
  · intro h
    have hnil : s.dropWhile Char.isWhitespace = [] :=
      List.dropWhile_eq_nil_iff.2 h
    simp [hnil]

/- ------------------------------------------------------------------
   Claim theorems
   ------------------------------------------------------------------ -/

/-- Claim C1: compiling the drawing surface produces a mask of identical
dimensions in which a pixel is exactly opaque white (255,255,255,255)
when the surface alpha there is > 0 and exactly opaque black (0,0,0,255)
otherwise, and every pixel of the compiled mask is one of those two
values — no other value appears, whatever RGBA the brush wrote. -/
theorem compileMask_binary (img : ImageData) :
    (compileMask img).width = img.width ∧
    (compileMask img).height = img.height ∧
    (compileMask img).data =
      img.data.map (fun p => if p.a > 0 then whitePixel else blackPixel) ∧
    ∀ q ∈ (compileMask img).data, q = whitePixel ∨ q = blackPixel := by
  have hdata : (compileMask img).data =
      img.data.map (fun p => if p.a > 0 then whitePixel else blackPixel) :=
    applyMaskLoop_eq_map img.data
  refine ⟨rfl, rfl, hdata, ?_⟩
  intro q hq
  rw [hdata] at hq
  obtain ⟨p, _, rfl⟩ := List.mem_map.1 hq
  by_cases hp : p.a > 0 <;> simp [hp]

/-- Claim C1 witness: on the concrete 2x1 buffer with one painted and
one untouched pixel, the binarity clause applies to its white pixel. -/
theorem compileMask_binary_witness :
    whitePixel ∈ (compileMask bufEx).data ∧
    (whitePixel = whitePixel ∨ whitePixel = blackPixel) :=
  ⟨by decide, (compileMask_binary bufEx).2.2.2 whitePixel (by decide)⟩

/-- Claim C2: the recorded stroke point in buffer coordinates is
((clientX - left) * width / rectWidth, (clientY - top) * height /
rectHeight): each axis is scaled independently by the ratio of the
buffer dimension to the on-screen rendered dimension. -/
theorem getCoordinates_scales (clientX clientY canvasWidth canvasHeight : ℚ)
    (rect : DomRect) :
    getCoordinates clientX clientY canvasWidth canvasHeight rect =
      ((clientX - rect.left) * canvasWidth / rect.width,
       (clientY - rect.top) * canvasHeight / rect.height) := by
  simp [getCoordinates, mul_div_assoc]

/-- Claim C3 counterexample: eleven stroke starts after a photo load
leave the history with eleven snapshots (more than 10), and after ten
undos the stack is still non-empty, so an eleventh undo still restores
a snapshot — refuting both the 10-snapshot bound and the at-most-10
restoring undos. -/
theorem eleven_snapshots_after_eleven_strokes :
    elevenStarts.history.length = 11 ∧
    (handleUndo^[10] elevenStarts).history ≠ [] := by decide

/-- Claim C3 as amended: the history never holds more than 11
snapshots — each guarded mutation (stroke start or clear) keeps at
most the 10 most recent prior entries and then pushes one new
snapshot, so after more than 10 guarded mutations without intervening
undos at most 11 consecutive undo calls can restore a snapshot before
the stack is exhausted (eleven undos empty it in the eleven-stroke
scenario). -/
theorem history_bound_eleven (s : CanvasState) :
    (startDrawing s).history.length = min s.history.length 10 + 1 ∧
    (handleClear s).history.length = min s.history.length 10 + 1 ∧
    (startDrawing s).history.length ≤ 11 ∧
    (handleUndo^[11] elevenStarts).history = [] := by
  refine ⟨startDrawing_history_length s, handleClear_history_length s, ?_, by decide⟩
  have := startDrawing_history_length s
  omega

/-- Claim C4: from any buffer state, beginStroke; any sequence of
extendStroke effects; endStroke; undo leaves the buffer byte-identical
to the state before beginStroke, and pops exactly the snapshot that
beginStroke pushed (leaving the trimmed pre-stroke history). -/
theorem undo_inverse (s : CanvasState) (fs : List (List Pixel → List Pixel)) :
    (handleUndo (stopDrawing (drawAll fs (startDrawing s)))).pixels = s.pixels ∧
    (handleUndo (stopDrawing (drawAll fs (startDrawing s)))).history =
      sliceLastTen s.history := by
  have hd := drawAll_history fs (startDrawing s)
  have hhist : (drawAll fs (startDrawing s)).history =
      sliceLastTen s.history ++ [s.pixels] := hd.1
  have hdraw : (drawAll fs (startDrawing s)).isDrawing = true := hd.2
  have hstop : stopDrawing (drawAll fs (startDrawing s)) =
      { drawAll fs (startDrawing s) with isDrawing := false } := by
    simp [stopDrawing, hdraw]
  rw [hstop]
  unfold handleUndo
  simp [hhist, List.getLast?_concat, List.dropLast_concat]

/-- Claim C5 counterexample: loading a 1x3 photo after painting on a
2x1 photo leaves the history stack non-empty (the init effect stores
the blank buffer as one snapshot), refuting the claimed empty stack. -/
theorem reload_history_nonempty : afterReload.history ≠ [] := by decide

/-- Claim C5 as amended: loading a second photo after painting on the
first discards every prior snapshot and yields a history stack holding
exactly one snapshot — the blank buffer — and a fully transparent
drawing surface sized to the second photo's dimensions, even when the
two photos' dimensions differ. -/
theorem reload_resets (s : CanvasState) (w h : Nat) :
    loadPhoto w h s =
      { width := w, height := h
        pixels := List.replicate (w * h) clearPixel
        history := [List.replicate (w * h) clearPixel]
        isDrawing := s.isDrawing } := rfl

/-- Claim C6: undo on an empty history is a silent no-op — the whole
state, buffer and history included, is unchanged and nothing fails —
and on a non-empty history undo replaces the entire buffer with the
most recent snapshot and pops exactly that snapshot. -/
theorem undo_total_spec (s : CanvasState) :
    (s.history = [] → handleUndo s = s) ∧
    (∀ p, s.history.getLast? = some p →
      handleUndo s = { s with pixels := p, history := s.history.dropLast }) := by
  constructor
  · intro h
    simp [handleUndo, h]
  · intro p hp
    unfold handleUndo
    rw [hp]

/-- Claim C6 witness: the empty-history case at a concrete state and
the pop case at a concrete one-snapshot state. -/
theorem undo_total_spec_witness :
    handleUndo emptyHistState = emptyHistState ∧
    handleUndo oneHistState =
      { oneHistState with pixels := [whitePixel], history := List.dropLast [[whitePixel]] } :=
  ⟨(undo_total_spec emptyHistState).1 rfl,
   (undo_total_spec oneHistState).2 [whitePixel] rfl⟩

/-- Claim C7 counterexample: in the reachable state obtained by
pressing the pointer down (a stroke is active), undo and clear both
run without ending the stroke — the stroke-active flag is still set
after the buffer replacement and after the buffer reset. -/
theorem undo_during_active_stroke :
    strokingState.isDrawing = true ∧
    (handleUndo strokingState).isDrawing = true ∧
    (handleClear strokingState).isDrawing = true := by decide

/-- Claim C7 as amended: undo and clear do not implicitly end an
active stroke — both leave the stroke-active flag exactly as it was,
so a stroke active when undo or clear runs remains active across the
buffer replacement or reset; only a pointer-up/leave (stopDrawing)
deactivates a stroke. -/
theorem undo_clear_keep_stroke_flag (s : CanvasState) :
    (handleUndo s).isDrawing = s.isDrawing ∧
    (handleClear s).isDrawing = s.isDrawing ∧
    (stopDrawing s).isDrawing = false := by
  refine ⟨?_, rfl, ?_⟩
  · unfold handleUndo
    cases s.history.getLast? <;> rfl
  · by_cases hd : s.isDrawing <;> simp [stopDrawing, hd]

/-- Claim C8: for every payload of the form
data:image/(word);base64,(rest) with a non-empty word of JS word
characters, the submission part built for the mask carries exactly
(rest) as its data — the data-URI scheme head is stripped — together
with the explicitly declared MIME type image/png. -/
theorem mask_handoff_strips (w rest : List Char) (hw : w ≠ [])
    (hall : ∀ c ∈ w, isWordChar c = true) :
    maskInlinePart (dataHead ++ (w ++ (base64Sep ++ rest))) =
      { mimeType := pngMime, data := rest } := by
  have h1 : dropLit dataHead (dataHead ++ (w ++ (base64Sep ++ rest))) =
      some (w ++ (base64Sep ++ rest)) := dropLit_append _ _
  have h2 := takeWhile_word_semi w (['b', 'a', 's', 'e', '6', '4', ','] ++ rest) hall
  have h3 : dropLit base64Sep (';' :: (['b', 'a', 's', 'e', '6', '4', ','] ++ rest)) =
      some rest := dropLit_append base64Sep rest
  have he : w ++ (base64Sep ++ rest) =
      w ++ ';' :: (['b', 'a', 's', 'e', '6', '4', ','] ++ rest) := rfl
  unfold maskInlinePart cleanMask
  rw [h1, he]
  simp only [Option.elim_some]
  rw [h2.1, h2.2, h3]
  simp [hw]

/-- Claim C8 witness: the concrete payload data:image/png;base64,AB is
stripped to AB. -/
theorem mask_handoff_strips_witness :
    maskInlinePart (dataHead ++ (['p', 'n', 'g'] ++ (base64Sep ++ ['A', 'B']))) =
      { mimeType := pngMime, data := ['A', 'B'] } :=
  mask_handoff_strips ['p', 'n', 'g'] ['A', 'B'] (by decide) (by decide)

/-- Claim C9: over every event sequence from the mount state the
history length stays at most 11; a photo load leaves exactly one
snapshot (the blank buffer), and undo never grows the stack — memory
stays bounded. -/
theorem history_length_invariant (es : List Event) (w h : Nat) (s : CanvasState) :
    (run es initState).history.length ≤ 11 ∧
    (loadPhoto w h s).history.length = 1 ∧
    (handleUndo s).history.length ≤ s.history.length :=
  ⟨run_history_bound es initState (by decide), rfl, handleUndo_history_length s⟩

/-- Claim C10: with a target photo loaded, the Generate action is
enabled exactly when the prompt contains a non-whitespace character —
no stroke or mask condition occurs in the enablement — and compiling
the untouched fully transparent buffer yields the all-black mask
(every pixel exactly (0,0,0,255)). -/
theorem zero_stroke_submission (prompt : List Char) (w h : Nat) :
    (generateEnabled true prompt = true ↔ ∃ c ∈ prompt, c.isWhitespace = false) ∧
    compileMask ⟨w, h, List.replicate (w * h) clearPixel⟩ =
      ⟨w, h, List.replicate (w * h) blackPixel⟩ := by
  constructor
  · have h1 : generateEnabled true prompt = true ↔ ¬ jsTrim prompt = [] := by
      simp [generateEnabled, List.isEmpty_iff]
    rw [h1, jsTrim_eq_nil_iff]
    push_neg
    simp [Bool.not_eq_true]
  · unfold compileMask
    have h0 : applyMaskLoop (List.replicate (w * h) clearPixel)
        (blackFill (w * h)) = List.replicate (w * h) blackPixel := by
      have hmap := applyMaskLoop_eq_map (List.replicate (w * h) clearPixel)
      rw [List.length_replicate] at hmap
      rw [hmap, List.map_replicate]
      simp [clearPixel]
    simp [h0]

/-- Claim C10 witness: the iff applied at the one-letter prompt and
the all-black mask at a 1x1 buffer. -/
theorem zero_stroke_submission_witness :
    generateEnabled true ['a'] = true ∧
    compileMask ⟨1, 1, List.replicate (1 * 1) clearPixel⟩ =
      ⟨1, 1, List.replicate (1 * 1) blackPixel⟩ :=
  ⟨((zero_stroke_submission ['a'] 1 1).1).2 ⟨'a', by decide, by decide⟩,
   (zero_stroke_submission ['a'] 1 1).2⟩

end Shopfront
